import Mathlib

/-!
Verification development for the polygon editing engine of the
ftw-editing-app repository (`src/composables/useEdit.ts`).

The engine state is shallowly embedded: coordinates are exact rationals,
the OpenLayers `VectorSource` holding the edited features becomes a list
of features in insertion order, object identity of OpenLayers features
becomes an explicit numeric id (`fid`), and the GeoJSON snapshot stack
becomes a list of feature-list copies.  The external `polygon-clipping`
library (`union`, `difference`, `intersection`) and `Math.sqrt` are not
part of this repository, so they are passed in as function parameters;
every claim below is settled for all (or explicitly chosen) values of
those parameters.
-/

namespace FtwEdit

/-- A coordinate pair, as in the GeoJSON nested-array encoding. -/
abbrev Point := ℚ × ℚ

/-- A linear ring: a list of coordinate pairs. -/
abbrev LinearRing := List Point

/-- A polygon: a list of rings (outer ring first, then holes). -/
abbrev Poly := List LinearRing

/-- A multi-polygon: a list of polygons, the operand type of
`polygon-clipping`. -/
abbrev MultiPoly := List Poly

/-- Geometry of a feature held in `editSource`.  The edit source only ever
holds `Polygon` and `MultiPolygon` geometries (drawn polygons, split
results, merge results, imported polygons). -/
inductive Geom where
  | polygon (rings : Poly)
  | multiPolygon (polys : MultiPoly)
deriving DecidableEq, Repr

/-- Models the coordinate extraction done at several places in
`useEdit.ts`: a `Polygon`'s coordinates are wrapped in a one-element
array, a `MultiPolygon`'s coordinates are used as-is. -/
def Geom.coordsAsMulti : Geom → MultiPoly
  | .polygon rings => [rings]
  | .multiPolygon polys => polys

/-- An OpenLayers feature: an identity (`fid`, modelling object identity /
`getUid`) together with its geometry. -/
structure Feature where
  fid : Nat
  geom : Geom
deriving DecidableEq, Repr

/-- The module-level mutable state of `useEdit.ts`:
`editSource` (the geometry store, in insertion order), the `undoStack`
with its `canUndo` flag, `gridSnapSource` (holding the grid-cell boundary
polygon when available), the `mergeTarget` of merge mode's two-click
protocol, and a counter for fresh feature identities. -/
structure EditState where
  store : List Feature
  undoStack : List (List Feature)
  canUndo : Bool
  gridSnap : List Poly
  mergeTarget : Option Feature
  nextId : Nat
deriving DecidableEq, Repr

/-- Models `saveSnapshot`: push a serialized copy of the current feature set onto
the undo stack (top of the stack is the end of the list) and set
`canUndo`. -/
def saveSnapshot (s : EditState) : EditState :=
  { s with undoStack := s.undoStack ++ [s.store], canUndo := true }

/-- Models `undo`: no-op when the stack is empty; otherwise pop the most recent
snapshot, replace the store contents wholesale, and recompute
`canUndo`. -/
def undo (s : EditState) : EditState :=
  match s.undoStack.getLast? with
  | none => s
  | some snap =>
      { s with
        store := snap
        undoStack := s.undoStack.dropLast
        canUndo := !s.undoStack.dropLast.isEmpty }

/-- The value returned by the TS `undo()` function.  Every exit path of
`undo()` in `useEdit.ts` is a bare `return` (or falling off the end), so
the function returns `undefined` on all inputs — it never produces a
boolean. -/
def undoReturn (_ : EditState) : Option Bool := none

/-- Iterates `undo`: `n` successive calls. -/
def undoN : Nat → EditState → EditState
  | 0, s => s
  | n + 1, s => undo (undoN n s)

/-- Apply a list of operations left to right. -/
def applySeq : List (EditState → EditState) → EditState → EditState
  | [], s => s
  | f :: fs, s => applySeq fs (f s)

/-- An operation that commits a mutation: it pushes exactly one snapshot
of the pre-operation feature set onto the undo stack (the engine calls
`saveSnapshot()` itself immediately before mutating, never after). -/
def MutatingOp (f : EditState → EditState) : Prop :=
  ∀ s, (f s).undoStack = s.undoStack ++ [s.store]

/-! ## Ring / polygon utilities (`snapToLine`, dedup, `bufferLine`) -/

/-- Squared euclidean distance, as computed by `snapToLine`. -/
def distSq (p q : Point) : ℚ :=
  (p.1 - q.1) ^ 2 + (p.2 - q.2) ^ 2

/-- The clamped projection of `p` onto the segment `a`-`b`, as computed in
the loop body of `snapToLine` (`t = 0` for a zero-length segment). -/
def projClamp (p a b : Point) : Point :=
  let dx := b.1 - a.1
  let dy := b.2 - a.2
  let lenSq := dx * dx + dy * dy
  let t : ℚ :=
    if lenSq = 0 then 0
    else max 0 (min 1 (((p.1 - a.1) * dx + (p.2 - a.2) * dy) / lenSq))
  (a.1 + t * dx, a.2 + t * dy)

/-- The segments of a polyline: consecutive coordinate pairs
(`lineCoords[i]`, `lineCoords[i+1]`). -/
def segmentsOf (line : List Point) : List (Point × Point) :=
  line.zip line.tail

/-- Squared distance from `p` to its clamped projection on a segment. -/
def segDist (p : Point) (seg : Point × Point) : ℚ :=
  distSq p (projClamp p seg.1 seg.2)

/-- The minimum-tracking loop of `snapToLine`: `none` models the initial
`minDistSq = Infinity`; a candidate replaces the best so far only under
strict `<`, so the first of equally near segments wins. -/
def snapFold (p : Point) : List (Point × Point) → Option (ℚ × Point) → Option (ℚ × Point)
  | [], best => best
  | seg :: rest, best =>
      let pr := projClamp p seg.1 seg.2
      let d := distSq p pr
      let best' :=
        match best with
        | none => some (d, pr)
        | some (m, c) => if d < m then some (d, pr) else some (m, c)
      snapFold p rest best'

/-- Models `snapToLine(point, lineCoords, thresholdSq)`: the point becomes the
nearest clamped projection when its squared distance is within the
threshold, else it is returned unchanged (in the source the point array
is mutated in place; here the new point is returned). -/
def snapToLine (p : Point) (line : List Point) (thresholdSq : ℚ) : Point :=
  match snapFold p (segmentsOf line) none with
  | none => p
  | some (m, c) => if m ≤ thresholdSq then c else p

/-- The consecutive-duplicate removal applied to each result ring in
`splitPolygon` (the source splices out `ring[c]` when it equals
`ring[c-1]`, scanning from the end; on values this collapses every run of
equal consecutive vertices to one vertex, which is what this structural
recursion computes). -/
def dedupRing : List Point → List Point
  | [] => []
  | [p] => [p]
  | p :: q :: rest =>
      if p = q then dedupRing (q :: rest) else p :: dedupRing (q :: rest)

/-- The forward consecutive-duplicate removal at the top of `bufferLine`
(`coords` starts with the first vertex; a vertex is appended only when it
differs from the last kept vertex). -/
def dedupFrom (prev : Point) : List Point → List Point
  | [] => []
  | c :: rest => if c = prev then dedupFrom prev rest else c :: dedupFrom c rest

/-- Duplicate removal for the drawn line's coordinates in `bufferLine`. -/
def dedupCoords : List Point → List Point
  | [] => []
  | p :: rest => p :: dedupFrom p rest

/-- The per-segment rectangle of `bufferLine`, extended past the endpoints
along the segment direction; `none` models the `len === 0` `continue`
(`sqrtFn` stands for `Math.sqrt`). -/
def segmentRect (sqrtFn : ℚ → ℚ) (distance : ℚ) (a b : Point) : Option Poly :=
  let dx := b.1 - a.1
  let dy := b.2 - a.2
  let len := sqrtFn (dx * dx + dy * dy)
  if len = 0 then none
  else
    let nx := (-dy / len) * distance
    let ny := (dx / len) * distance
    let ex := (dx / len) * distance
    let ey := (dy / len) * distance
    some [[(a.1 - ex + nx, a.2 - ey + ny), (b.1 + ex + nx, b.2 + ey + ny),
           (b.1 + ex - nx, b.2 + ey - ny), (a.1 - ex - nx, a.2 - ey - ny),
           (a.1 - ex + nx, a.2 - ey + ny)]]

/-- Models `bufferLine(lineCoords, distance)`: dedup the coordinates, return
`undefined` for fewer than two distinct vertices, build one rectangle per
segment, and union the rectangles (`unionN` stands for the variadic
`polygonClipping.union` call; it is not consulted for a single
rectangle). -/
def bufferLine (unionN : List Poly → MultiPoly) (sqrtFn : ℚ → ℚ)
    (lineCoords : List Point) (distance : ℚ) : Option MultiPoly :=
  let coords := dedupCoords lineCoords
  if coords.length < 2 then none
  else
    let rectangles := (segmentsOf coords).filterMap fun seg =>
      segmentRect sqrtFn distance seg.1 seg.2
    match rectangles with
    | [] => none
    | [r] => some [r]
    | rs => some (unionN rs)

/-! ## Split processing -/

/-- Post-processing of one result ring in `splitPolygon`: snap every
vertex onto the cut line, then remove consecutive duplicates. -/
def cleanRing (line : List Point) (thrSq : ℚ) (ring : LinearRing) : LinearRing :=
  dedupRing (ring.map fun pt => snapToLine pt line thrSq)

/-- Post-processing of one result polygon: clean each ring and drop rings
that fell below 4 vertices.  A polygon none of whose rings survive stays
in the result as an empty list of rings — `splitPolygon` never removes a
polygon from the `difference` result. -/
def cleanPoly (line : List Point) (thrSq : ℚ) (poly : Poly) : Poly :=
  (poly.map (cleanRing line thrSq)).filter fun r => 4 ≤ r.length

/-- The in-place cleanup loop over the whole `difference` result. -/
def cleanupResult (line : List Point) (thrSq : ℚ) (result : MultiPoly) : MultiPoly :=
  result.map (cleanPoly line thrSq)

/-- The loop body of `splitPolygon` for one store feature, accumulating
(`featuresToAdd`, ids of `featuresToRemove`, fresh-id counter).  An empty
`difference` result means `continue`: the feature is neither removed nor
replaced. -/
def splitStep (diff : MultiPoly → MultiPoly → MultiPoly) (line : List Point)
    (thrSq : ℚ) (bufferPoly : MultiPoly)
    (acc : List Feature × List Nat × Nat) (f : Feature) :
    List Feature × List Nat × Nat :=
  let polyCoords := f.geom.coordsAsMulti
  let result := diff polyCoords bufferPoly
  if result = [] then acc
  else
    let cleaned := cleanupResult line thrSq result
    let newFeats : List Feature :=
      if result.length ≤ 1 ∧ polyCoords.length ≤ 1 then
        [⟨acc.2.2, .polygon (cleaned.headD [])⟩]
      else
        cleaned.enum.map fun ip => ⟨acc.2.2 + ip.1, Geom.polygon ip.2⟩
    (acc.1 ++ newFeats, acc.2.1 ++ [f.fid], acc.2.2 + newFeats.length)

/-- The buffer distance used by `splitPolygon` (`1e-8`). -/
def bufferDistance : ℚ := 1 / 100000000

/-- Models `splitPolygon(splitFeature)` for a drawn `LineString` with coordinates
`lineCoords`: build the thin buffer (return unchanged when it is
`undefined`), process every store feature, then remove and add the
collected features.  `diff` stands for `polygonClipping.difference`. -/
def splitPolygon (diff : MultiPoly → MultiPoly → MultiPoly)
    (unionN : List Poly → MultiPoly) (sqrtFn : ℚ → ℚ)
    (lineCoords : List Point) (s : EditState) : EditState :=
  match bufferLine unionN sqrtFn lineCoords bufferDistance with
  | none => s
  | some bufferPoly =>
      let thrSq := (bufferDistance * 3) ^ 2
      let acc := s.store.foldl (splitStep diff lineCoords thrSq bufferPoly) ([], [], s.nextId)
      { s with
        store := (s.store.filter fun f => decide (f.fid ∉ acc.2.1)) ++ acc.1
        nextId := acc.2.2 }

/-- The `drawend` handler installed by `activateSplitMode`: it first calls
`saveSnapshot()` unconditionally, then runs `splitPolygon` on the drawn
line. -/
def splitDrawend (diff : MultiPoly → MultiPoly → MultiPoly)
    (unionN : List Poly → MultiPoly) (sqrtFn : ℚ → ℚ)
    (lineCoords : List Point) (s : EditState) : EditState :=
  splitPolygon diff unionN sqrtFn lineCoords (saveSnapshot s)

/-! ## Draw, delete, merge, import, export -/

/-- A committed polygon draw: the `drawend` handler of draw mode pushes a
snapshot, then the `Draw` interaction adds the completed polygon (as a
fresh feature) to `editSource`; no degeneracy check is made anywhere on
this path. -/
def drawCommit (rings : Poly) (s : EditState) : EditState :=
  let s1 := saveSnapshot s
  { s1 with
    store := s1.store ++ [⟨s1.nextId, .polygon rings⟩]
    nextId := s1.nextId + 1 }

/-- The delete-mode click handler: `hit` is the topmost edit feature under
the pointer (`none` when the click misses); on a hit a snapshot is taken
and the feature removed, otherwise nothing happens. -/
def deleteClick (hit : Option Feature) (s : EditState) : EditState :=
  match hit with
  | none => s
  | some f =>
      let s1 := saveSnapshot s
      { s1 with store := s1.store.filter fun g => g.fid != f.fid }

/-- Models `mergeFeatures(target, source)`: union the two geometries; an empty
union yields `undefined`, a one-polygon union is tagged `Polygon`, any
other result `MultiPolygon`.  `nid` is the identity of the freshly read
feature. -/
def mergeFeatures (union : MultiPoly → MultiPoly → MultiPoly)
    (target source : Feature) (nid : Nat) : Option Feature :=
  let result := union target.geom.coordsAsMulti source.geom.coordsAsMulti
  if result = [] then none
  else
    some ⟨nid, if result.length = 1 then .polygon (result.headD []) else .multiPolygon result⟩

/-- The merge-mode click handler: first qualifying click selects the
target; a click on the current target or a miss is a no-op; a click on a
different feature unions it with the target and, when the union is
non-empty, snapshots, replaces both inputs by the union feature and makes
it the new target. -/
def mergeClick (union : MultiPoly → MultiPoly → MultiPoly)
    (s : EditState) (hit : Option Feature) : EditState :=
  match hit with
  | none => s
  | some f =>
      match s.mergeTarget with
      | none => { s with mergeTarget := some f }
      | some t =>
          if f.fid = t.fid then s
          else
            match mergeFeatures union t f s.nextId with
            | none => s
            | some merged =>
                let s1 := saveSnapshot s
                { s1 with
                  store := (s1.store.filter fun g => g.fid != t.fid && g.fid != f.fid) ++ [merged]
                  mergeTarget := some merged
                  nextId := s1.nextId + 1 }

/-- Models `importGeoJSON(geojson)`: snapshot first, then add every feature
parsed from the imported collection to the store (the subsequent view-fit
does not touch the store). -/
def importGeoJSON (feats : List Feature) (s : EditState) : EditState :=
  let s1 := saveSnapshot s
  { s1 with store := s1.store ++ feats }

/-- Models `exportGeoJSON(gridCellId)`: bail out (returning nothing, leaving no
trace) when `gridSnapSource` holds no boundary feature; otherwise clip
every store feature against the boundary with `intersection` (`inter`)
and flatten the resulting polygons, in store order, into the output
collection.  The store is never written. -/
def exportGeoJSON (inter : MultiPoly → MultiPoly → MultiPoly)
    (s : EditState) : EditState × Option (List Poly) :=
  match s.gridSnap with
  | [] => (s, none)
  | gridCoords :: _ =>
      (s, some (s.store.foldl (fun acc f => acc ++ inter f.geom.coordsAsMulti [gridCoords]) []))

/-- A fixed serialization of the export output, standing in for
`JSON.stringify` on the assembled `FeatureCollection`. -/
def serializeExport (polys : List Poly) : String :=
  toString (repr polys)

/-! ## Helper lemmas -/

/-- Popping from a stack that ends in `a` yields `a` and the remaining
stack. -/
theorem undo_concat (s : EditState) (l : List (List Feature)) (a : List Feature)
    (h : s.undoStack = l ++ [a]) :
    (undo s).store = a ∧ (undo s).undoStack = l := by
  have h1 : s.undoStack.getLast? = some a := by
    rw [h]; exact List.getLast?_concat _
  unfold undo
  rw [h1]
  simp [h, List.dropLast_concat]

/-- A list whose consecutive-duplicate collapse is what `dedupFrom`
computes is empty when every element equals the reference vertex. -/
theorem dedupFrom_all_eq (prev : Point) (l : List Point) (h : ∀ c ∈ l, c = prev) :
    dedupFrom prev l = [] := by
  induction l with
  | nil => rfl
  | cons c rest ih =>
      have hc : c = prev := h c (List.mem_cons_self _ _)
      rw [dedupFrom, if_pos hc]
      exact ih fun x hx => h x (List.mem_cons_of_mem _ hx)

/-- Fewer than two distinct vertices means the deduplicated coordinate
list of `bufferLine` has fewer than two entries. -/
theorem dedupCoords_short (line : List Point) (h : line.toFinset.card < 2) :
    (dedupCoords line).length < 2 := by
  cases line with
  | nil => simp [dedupCoords]
  | cons p rest =>
      have hall : ∀ c ∈ rest, c = p := by
        intro c hc
        have h1 : c ∈ (p :: rest).toFinset := by simp [hc]
        have h2 : p ∈ (p :: rest).toFinset := by simp
        exact Finset.card_le_one.mp (Nat.lt_succ_iff.mp h) c h1 p h2
      rw [dedupCoords, dedupFrom_all_eq p rest hall]
      simp

/-- The head value of a ring survives consecutive-duplicate removal. -/
theorem dedupRing_head (p : Point) (l : List Point) :
    (dedupRing (p :: l)).head? = some p := by
  induction l generalizing p with
  | nil => rfl
  | cons q rest ih =>
      by_cases h : p = q
      · rw [dedupRing, if_pos h, h]; exact ih q
      · rw [dedupRing, if_neg h]; rfl

/-- Consecutive-duplicate removal leaves no two adjacent equal
vertices. -/
theorem dedupRing_chain (l : List Point) : (dedupRing l).Chain' (· ≠ ·) := by
  induction l with
  | nil => simp [dedupRing]
  | cons p rest ih =>
      cases rest with
      | nil => simp [dedupRing]
      | cons q rest2 =>
          by_cases h : p = q
          · rw [dedupRing, if_pos h]; exact ih
          · rw [dedupRing, if_neg h]
            rw [List.chain'_cons']
            refine ⟨?_, ih⟩
            intro b hb
            rw [dedupRing_head q rest2] at hb
            cases hb
            exact h

/-! ## Claim theorems -/

/-- Claim C4, counterexample state: one snapshot is available. -/
def c4state : EditState :=
  ⟨[], [[⟨0, .polygon [[(0, 0), (1, 0), (1, 1), (0, 0)]]⟩]], true, [], none, 1⟩

/-- Claim C4 is false as stated: at `c4state` a snapshot is available and
`undo` applies it (the popped snapshot becomes the store), yet the TS
function returns no boolean at all — its return value is `undefined`
(`none`), not `true`. -/
theorem c4_counterexample :
    c4state.undoStack ≠ [] ∧
    (undo c4state).store = [⟨0, .polygon [[(0, 0), (1, 0), (1, 1), (0, 0)]]⟩] ∧
    (undo c4state).undoStack = [] ∧
    undoReturn c4state ≠ some true := by
  refine ⟨by simp [c4state], ?_, ?_, by simp [undoReturn]⟩
  · simp [undo, c4state]
  · simp [undo, c4state]

/-- Claim C4 (amended): `undo()` with empty history is a no-op that
leaves the whole engine state (store included) unchanged and never
faults; it returns no value on any input — availability is signalled by
the `canUndo` flag, not by a returned boolean. -/
theorem c4_undo_empty_noop_void_return (s : EditState) :
    (s.undoStack = [] → undo s = s) ∧ undoReturn s = none := by
  refine ⟨fun h => ?_, rfl⟩
  unfold undo
  rw [h]
  rfl

/-- Witness for `c4_undo_empty_noop_void_return` at the empty-history
state. -/
theorem c4_witness :
    undo ⟨[], [], false, [], none, 0⟩ = ⟨[], [], false, [], none, 0⟩ ∧
    undoReturn ⟨[], [], false, [], none, 0⟩ = none := by
  have h := c4_undo_empty_noop_void_return ⟨[], [], false, [], none, 0⟩
  exact ⟨h.1 rfl, h.2⟩

/-- Claim C6: export is pure — it never mutates the store (the returned
state is the input state), and running it twice on an unmutated state
with the same boundary yields byte-identical serialized output. -/
theorem c6_export_pure_deterministic (inter : MultiPoly → MultiPoly → MultiPoly)
    (s : EditState) :
    (exportGeoJSON inter s).1 = s ∧
    (exportGeoJSON inter (exportGeoJSON inter s).1).2.map serializeExport
      = (exportGeoJSON inter s).2.map serializeExport := by
  cases h : s.gridSnap <;> simp [exportGeoJSON, h]

/-- Claim C7, counterexample state: features to export, boundary not yet
available. -/
def c7state : EditState :=
  ⟨[⟨0, .polygon [[(0, 0), (4, 0), (4, 4), (0, 4), (0, 0)]]⟩], [], false, [], none, 1⟩

/-- Claim C7 is false as stated: invoking export while the boundary is
absent produces no output and returns the engine state exactly unchanged
— no component of the state records a pending/queued export, so the
invocation is discarded, not deferred until the boundary resolves. -/
theorem c7_counterexample :
    exportGeoJSON (fun _ _ => []) c7state = (c7state, none) ∧ c7state.store ≠ [] := by
  exact ⟨rfl, by simp [c7state]⟩

/-- Claim C7 (amended): export invoked without an available boundary is a
silent no-op — it returns no output and leaves the state unchanged (and
Split does not consult the boundary at all); nothing is queued. -/
theorem c7_export_without_boundary_noop (inter : MultiPoly → MultiPoly → MultiPoly)
    (s : EditState) (h : s.gridSnap = []) :
    exportGeoJSON inter s = (s, none) := by
  unfold exportGeoJSON
  rw [h]

/-- Witness for `c7_export_without_boundary_noop`. -/
theorem c7_witness :
    exportGeoJSON (fun _ _ => []) c7state = (c7state, none) :=
  c7_export_without_boundary_noop _ _ rfl

/-- Claim C10: importing a feature collection preserves every feature
already in the store — the new store is exactly the old features followed
by the imported ones — and exactly one snapshot, of the pre-import state,
is pushed. -/
theorem c10_import_preserves_and_snapshots (feats : List Feature) (s : EditState) :
    (importGeoJSON feats s).store = s.store ++ feats ∧
    (importGeoJSON feats s).undoStack = s.undoStack ++ [s.store] := by
  exact ⟨rfl, rfl⟩

/-- Claim C2, counterexample state. -/
def c2state : EditState :=
  ⟨[⟨0, .polygon [[(0, 0), (10, 0), (10, 10), (0, 10), (0, 0)]]⟩], [], false, [], none, 1⟩

/-- Claim C2 is false as stated: completing a split line whose two
vertices coincide (one distinct vertex) leaves the store unchanged, but
an undo snapshot IS pushed — the `drawend` handler calls `saveSnapshot()`
before `splitPolygon` performs its degeneracy check. -/
theorem c2_counterexample :
    (splitDrawend (fun _ _ => []) (fun _ => []) (fun _ => 1) [(0, 0), (0, 0)] c2state).undoStack
        ≠ c2state.undoStack ∧
    (splitDrawend (fun _ _ => []) (fun _ => []) (fun _ => 1) [(0, 0), (0, 0)] c2state).store
        = c2state.store := by
  constructor
  · simp [splitDrawend, splitPolygon, bufferLine, dedupCoords, dedupFrom, saveSnapshot, c2state]
  · simp [splitDrawend, splitPolygon, bufferLine, dedupCoords, dedupFrom, saveSnapshot, c2state]

/-- Claim C2 (amended): a completed split-line gesture with fewer than 2
distinct vertices leaves the geometry store unchanged, but still pushes
exactly one undo snapshot (of the unchanged state) onto the undo
stack. -/
theorem c2_degenerate_split_line (diff : MultiPoly → MultiPoly → MultiPoly)
    (unionN : List Poly → MultiPoly) (sqrtFn : ℚ → ℚ)
    (line : List Point) (s : EditState) (h : line.toFinset.card < 2) :
    (splitDrawend diff unionN sqrtFn line s).store = s.store ∧
    (splitDrawend diff unionN sqrtFn line s).undoStack = s.undoStack ++ [s.store] := by
  have hb : bufferLine unionN sqrtFn line bufferDistance = none := by
    unfold bufferLine
    simp [dedupCoords_short line h]
  unfold splitDrawend splitPolygon
  rw [hb]
  exact ⟨rfl, rfl⟩

/-- Witness for `c2_degenerate_split_line` on a zero-length line. -/
theorem c2_witness :
    (splitDrawend (fun _ _ => []) (fun _ => []) (fun _ => 1) [(0, 0), (0, 0)] c2state).store
        = c2state.store ∧
    (splitDrawend (fun _ _ => []) (fun _ => []) (fun _ => 1) [(0, 0), (0, 0)] c2state).undoStack
        = c2state.undoStack ++ [c2state.store] :=
  c2_degenerate_split_line _ _ _ _ _ (by simp)

/-- Claim C3: (1) a sequence of N committed mutating operations — each of
which pushes exactly one pre-mutation snapshot, as `MutatingOp` states —
is reverted by N `undo()` calls: the store's feature list (hence its
feature set) and the undo stack return to their pre-sequence values;
(2) a single `undo` after any such operation restores the state
immediately preceding that mutation; and (3)–(7) the five mutating entry
points (draw commit, split, delete on a hit, import, and a committing
merge click) all follow the snapshot-before-mutation discipline. -/
theorem c3_undo_restores_presequence_state :
    (∀ (ops : List (EditState → EditState)) (s : EditState),
        (∀ f ∈ ops, MutatingOp f) →
        (undoN ops.length (applySeq ops s)).store = s.store ∧
        (undoN ops.length (applySeq ops s)).undoStack = s.undoStack) ∧
    (∀ f, MutatingOp f → ∀ s, (undo (f s)).store = s.store ∧
        (undo (f s)).undoStack = s.undoStack) ∧
    (∀ rings, MutatingOp (drawCommit rings)) ∧
    (∀ diff unionN sqrtFn line, MutatingOp (splitDrawend diff unionN sqrtFn line)) ∧
    (∀ f, MutatingOp (deleteClick (some f))) ∧
    (∀ feats, MutatingOp (importGeoJSON feats)) ∧
    (∀ union (s : EditState) t f, s.mergeTarget = some t → f.fid ≠ t.fid →
        union t.geom.coordsAsMulti f.geom.coordsAsMulti ≠ [] →
        (mergeClick union s (some f)).undoStack = s.undoStack ++ [s.store]) := by
  have hone : ∀ f, MutatingOp f → ∀ s, (undo (f s)).store = s.store ∧
      (undo (f s)).undoStack = s.undoStack := by
    intro f hf s
    exact undo_concat (f s) s.undoStack s.store (hf s)
  refine ⟨?_, hone, ?_, ?_, ?_, ?_, ?_⟩
  · intro ops
    induction ops with
    | nil => intro s _; exact ⟨rfl, rfl⟩
    | cons f fs ih =>
        intro s h
        have hf : MutatingOp f := h f (List.mem_cons_self _ _)
        have hfs : ∀ g ∈ fs, MutatingOp g := fun g hg => h g (List.mem_cons_of_mem _ hg)
        have ih2 := ih (f s) hfs
        show (undo (undoN fs.length (applySeq fs (f s)))).store = s.store ∧
          (undo (undoN fs.length (applySeq fs (f s)))).undoStack = s.undoStack
        have hx : (undoN fs.length (applySeq fs (f s))).undoStack
            = s.undoStack ++ [s.store] := by
          rw [ih2.2, hf s]
        exact undo_concat _ _ _ hx
  · intro rings s; rfl
  · intro diff unionN sqrtFn line s
    show (splitPolygon diff unionN sqrtFn line (saveSnapshot s)).undoStack
      = s.undoStack ++ [s.store]
    unfold splitPolygon
    cases bufferLine unionN sqrtFn line bufferDistance <;> rfl
  · intro f s; rfl
  · intro feats s; rfl
  · intro union s t f ht hne hres
    simp [mergeClick, ht, hne, mergeFeatures, hres, saveSnapshot]

/-- Witness feature and initial state for `c3_undo_restores_presequence_state`. -/
def c3feat : Feature := ⟨3, .polygon [[(0, 0), (2, 0), (2, 2), (0, 2), (0, 0)]]⟩

/-- Witness for `c3_undo_restores_presequence_state`: an import followed
by a delete, undone by two `undo` calls, restores the empty store. -/
theorem c3_witness :
    (undoN 2 (applySeq [importGeoJSON [c3feat], deleteClick (some c3feat)]
        ⟨[], [], false, [], none, 0⟩)).store = [] := by
  have h := c3_undo_restores_presequence_state
  have hops : ∀ f ∈ [importGeoJSON [c3feat], deleteClick (some c3feat)], MutatingOp f := by
    intro f hf
    rcases List.mem_cons.mp hf with h1 | hf2
    · rw [h1]; exact h.2.2.2.2.2.1 [c3feat]
    · rcases List.mem_cons.mp hf2 with h2 | h3
      · rw [h2]; exact h.2.2.2.2.1 c3feat
      · cases h3
  exact (h.1 [importGeoJSON [c3feat], deleteClick (some c3feat)]
    ⟨[], [], false, [], none, 0⟩ hops).1

/-- Minimum-tracking invariant of `snapFold`: starting from a best pair
`(m, c)` the fold returns a pair whose distance is a lower bound for `m`
and for every remaining segment's distance, and which is the starting
pair or the projection record of one of the segments. -/
theorem snapFold_spec (p : Point) (segs : List (Point × Point)) (m : ℚ) (c : Point) :
    ∃ mc : ℚ × Point, snapFold p segs (some (m, c)) = some mc ∧
      mc.1 ≤ m ∧ (∀ seg ∈ segs, mc.1 ≤ segDist p seg) ∧
      (mc = (m, c) ∨
        ∃ seg ∈ segs, mc = (segDist p seg, projClamp p seg.1 seg.2)) := by
  induction segs generalizing m c with
  | nil => exact ⟨(m, c), rfl, le_refl _, by simp, Or.inl rfl⟩
  | cons seg rest ih =>
      by_cases hd : distSq p (projClamp p seg.1 seg.2) < m
      · obtain ⟨mc, h1, h2, h3, h4⟩ :=
          ih (distSq p (projClamp p seg.1 seg.2)) (projClamp p seg.1 seg.2)
        refine ⟨mc, ?_, le_trans h2 (le_of_lt hd), ?_, ?_⟩
        · rw [snapFold, if_pos hd] at *
          exact h1
        · intro x hx
          rcases List.mem_cons.mp hx with hx1 | hx2
          · rw [hx1]; exact h2
          · exact h3 x hx2
        · rcases h4 with h5 | ⟨s2, hs2, he⟩
          · exact Or.inr ⟨seg, List.mem_cons_self _ _, h5⟩
          · exact Or.inr ⟨s2, List.mem_cons_of_mem _ hs2, he⟩
      · obtain ⟨mc, h1, h2, h3, h4⟩ := ih m c
        refine ⟨mc, ?_, h2, ?_, ?_⟩
        · rw [snapFold, if_neg hd] at *
          exact h1
        · intro x hx
          rcases List.mem_cons.mp hx with hx1 | hx2
          · rw [hx1]; exact le_trans h2 (le_of_not_lt hd)
          · exact h3 x hx2
        · rcases h4 with h5 | ⟨s2, hs2, he⟩
          · exact Or.inl h5
          · exact Or.inr ⟨s2, List.mem_cons_of_mem _ hs2, he⟩

/-- Claim C9: `snapToLine` projects the point onto the nearest segment of
the polyline — the tracked minimum is a lower bound for every segment's
squared distance and is attained by the segment whose clamped projection
is returned — and the point becomes that projection exactly when the
minimal squared distance is within the threshold, else it is returned
unchanged (also when the polyline has no segment at all). -/
theorem c9_snap_projects_nearest_segment (p : Point) (line : List Point) (thr : ℚ) :
    (segmentsOf line = [] → snapToLine p line thr = p) ∧
    (segmentsOf line ≠ [] →
      ∃ m c, snapFold p (segmentsOf line) none = some (m, c) ∧
        (∀ seg ∈ segmentsOf line, m ≤ segDist p seg) ∧
        (∃ seg ∈ segmentsOf line, segDist p seg = m ∧ c = projClamp p seg.1 seg.2) ∧
        snapToLine p line thr = if m ≤ thr then c else p) := by
  constructor
  · intro h
    unfold snapToLine
    rw [h]
    rfl
  · intro h
    obtain ⟨seg, rest, hsegs⟩ := List.exists_cons_of_ne_nil h
    have hstep : snapFold p (segmentsOf line) none
        = snapFold p rest (some (distSq p (projClamp p seg.1 seg.2),
            projClamp p seg.1 seg.2)) := by
      rw [hsegs]; rfl
    obtain ⟨mc, h1, h2, h3, h4⟩ :=
      snapFold_spec p rest (distSq p (projClamp p seg.1 seg.2)) (projClamp p seg.1 seg.2)
    refine ⟨mc.1, mc.2, ?_, ?_, ?_, ?_⟩
    · rw [hstep, h1]
    · intro x hx
      rw [hsegs] at hx
      rcases List.mem_cons.mp hx with hx1 | hx2
      · rw [hx1]; exact h2
      · exact h3 x hx2
    · rcases h4 with h5 | ⟨s2, hs2, he⟩
      · refine ⟨seg, by rw [hsegs]; exact List.mem_cons_self _ _, ?_, ?_⟩
        · rw [h5]; rfl
        · rw [h5]
      · refine ⟨s2, by rw [hsegs]; exact List.mem_cons_of_mem _ hs2, ?_, ?_⟩
        · rw [he]
        · rw [he]
    · unfold snapToLine
      rw [hstep, h1]

/-- Witness for `c9_snap_projects_nearest_segment`: the point `(1, 1)`
against the single-segment line from `(0, 0)` to `(2, 0)`. -/
theorem c9_witness :
    ∃ m c, snapFold (1, 1) (segmentsOf [(0, 0), (2, 0)]) none = some (m, c) ∧
      (∀ seg ∈ segmentsOf [(0, 0), (2, 0)], m ≤ segDist (1, 1) seg) ∧
      (∃ seg ∈ segmentsOf [(0, 0), (2, 0)],
        segDist (1, 1) seg = m ∧ c = projClamp (1, 1) seg.1 seg.2) ∧
      snapToLine (1, 1) [(0, 0), (2, 0)] 4 = if m ≤ 4 then c else (1, 1) :=
  (c9_snap_projects_nearest_segment (1, 1) [(0, 0), (2, 0)] 4).2 (by simp [segmentsOf])

/-- Every feature id collected for removal by the `splitPolygon` loop
belongs to a processed feature whose `difference` with the buffer polygon
was non-empty (an empty result means `continue`). -/
theorem split_fold_remove_spec (diff : MultiPoly → MultiPoly → MultiPoly)
    (line : List Point) (thrSq : ℚ) (bufferPoly : MultiPoly) :
    ∀ (fs : List Feature) (acc : List Feature × List Nat × Nat) (x : Nat),
      x ∈ (fs.foldl (splitStep diff line thrSq bufferPoly) acc).2.1 →
      x ∈ acc.2.1 ∨ ∃ g ∈ fs, g.fid = x ∧ diff g.geom.coordsAsMulti bufferPoly ≠ [] := by
  intro fs
  induction fs with
  | nil => intro acc x hx; exact Or.inl hx
  | cons f fs ih =>
      intro acc x hx
      have hstep := ih (splitStep diff line thrSq bufferPoly acc f) x hx
      rcases hstep with h0 | ⟨g, hg, hgid, hgne⟩
      · by_cases hres : diff f.geom.coordsAsMulti bufferPoly = []
        · left
          rw [splitStep, if_pos hres] at h0
          exact h0
        · have h2 : (splitStep diff line thrSq bufferPoly acc f).2.1
              = acc.2.1 ++ [f.fid] := by
            rw [splitStep, if_neg hres]
          rw [h2] at h0
          rcases List.mem_append.mp h0 with h3 | h4
          · exact Or.inl h3
          · right
            refine ⟨f, List.mem_cons_self _ _, ?_, hres⟩
            cases List.mem_singleton.mp h4
            rfl
      · exact Or.inr ⟨g, List.mem_cons_of_mem _ hg, hgid, hgne⟩

/-- Claim C1 (amended): during split processing, a store feature whose
`difference` with the buffer polygon of the drawn line is empty is left
in the store unchanged — it is neither removed nor replaced (the loop
`continue`s past it).  Feature identities in the store are unique
(OpenLayers object identity). -/
theorem c1_empty_difference_keeps_feature (diff : MultiPoly → MultiPoly → MultiPoly)
    (unionN : List Poly → MultiPoly) (sqrtFn : ℚ → ℚ) (line : List Point)
    (s : EditState) (f : Feature)
    (hnd : (s.store.map Feature.fid).Nodup) (hf : f ∈ s.store)
    (hdiff : ∀ b, bufferLine unionN sqrtFn line bufferDistance = some b →
        diff f.geom.coordsAsMulti b = []) :
    f ∈ (splitPolygon diff unionN sqrtFn line s).store := by
  unfold splitPolygon
  cases hb : bufferLine unionN sqrtFn line bufferDistance with
  | none => exact hf
  | some bufferPoly =>
      have hdf : diff f.geom.coordsAsMulti bufferPoly = [] := hdiff _ hb
      apply List.mem_append_left
      rw [List.mem_filter]
      refine ⟨hf, ?_⟩
      rw [decide_eq_true_eq]
      intro hmem
      rcases split_fold_remove_spec diff line ((bufferDistance * 3) ^ 2) bufferPoly
          s.store ([], [], s.nextId) f.fid hmem with h0 | ⟨g, hg, hgid, hgne⟩
      · cases h0
      · have hgf : g = f := List.inj_on_of_nodup_map hnd hg hf hgid
        rw [hgf] at hgne
        exact hgne hdf

/-- Claim C1, counterexample state: a single square feature. -/
def c1feat : Feature := ⟨0, .polygon [[(0, 0), (10, 0), (10, 10), (0, 10), (0, 0)]]⟩

/-- Claim C1, counterexample state. -/
def c1state : EditState := ⟨[c1feat], [], false, [], none, 1⟩

/-- Claim C1 is false as stated: with a clipping adapter whose
`difference` is empty for every operand (so the store's only feature is
"entirely consumed by the cut line"), split processing leaves the store
exactly as it was — the feature is NOT removed. -/
theorem c1_counterexample :
    (splitPolygon (fun _ _ => []) (fun _ => []) (fun _ => 1) [(0, 0), (1, 0)] c1state).store
        = [c1feat] ∧
    c1feat ∈ (splitPolygon (fun _ _ => []) (fun _ => []) (fun _ => 1)
        [(0, 0), (1, 0)] c1state).store := by
  have h : (splitPolygon (fun _ _ => []) (fun _ => []) (fun _ => 1)
      [(0, 0), (1, 0)] c1state).store = [c1feat] := by
    simp [splitPolygon, bufferLine, dedupCoords, dedupFrom, segmentsOf, segmentRect,
      splitStep, c1state]
  exact ⟨h, by rw [h]; exact List.mem_singleton.mpr rfl⟩

/-- Witness for `c1_empty_difference_keeps_feature`. -/
theorem c1_witness :
    c1feat ∈ (splitPolygon (fun _ _ => []) (fun _ => []) (fun _ => 1)
        [(0, 0), (1, 0)] c1state).store :=
  c1_empty_difference_keeps_feature _ _ _ _ c1state c1feat
    (by simp [c1state]) (by simp [c1state]) (fun b _ => rfl)

/-- Claim C5, counterexample feature: an imported polygon whose ring has
only 3 vertices. -/
def c5feat : Feature := ⟨7, .polygon [[(0, 0), (1, 0), (0, 0)]]⟩

/-- Claim C5 is false as stated: the store invariant does not survive
every operation — `importGeoJSON` adds parsed features without any
duplicate-removal or degenerate-ring pruning, so after an import the
store can hold a ring with fewer than 4 vertices. -/
theorem c5_counterexample :
    c5feat ∈ (importGeoJSON [c5feat] ⟨[], [], false, [], none, 0⟩).store ∧
    ∃ rings, c5feat.geom = .polygon rings ∧ ∃ r ∈ rings, r.length < 4 := by
  constructor
  · simp [importGeoJSON, saveSnapshot]
  · exact ⟨[[(0, 0), (1, 0), (0, 0)]], rfl, [(0, 0), (1, 0), (0, 0)], by simp, by simp⟩

/-- Claim C5 (amended): the dedup/prune invariant holds for the rings
that Split's snap-and-prune post-processing produces — every ring of
every polygon in the cleaned `difference` result has at least 4 vertices
and no two consecutive duplicate vertices — but not store-wide: imported
rings are stored as-is (see the counterexample), and a split polygon
whose rings all collapse is kept as a zero-ring polygon rather than
dropped. -/
theorem c5_split_cleanup_ring_invariant (line : List Point) (thrSq : ℚ)
    (result : MultiPoly) (poly : Poly) (hp : poly ∈ cleanupResult line thrSq result)
    (r : LinearRing) (hr : r ∈ poly) :
    4 ≤ r.length ∧ r.Chain' (· ≠ ·) := by
  obtain ⟨orig, _, hpoly⟩ := List.mem_map.mp hp
  rw [← hpoly] at hr
  unfold cleanPoly at hr
  obtain ⟨hmem, hlen⟩ := List.mem_filter.mp hr
  obtain ⟨r0, _, hring⟩ := List.mem_map.mp hmem
  constructor
  · exact decide_eq_true_eq.mp hlen
  · rw [← hring]
    exact dedupRing_chain _

/-- Witness for `c5_split_cleanup_ring_invariant`: cleanup of a
5-vertex square ring (with an empty cut line, so snapping is the
identity). -/
theorem c5_witness :
    4 ≤ ([((0 : ℚ), (0 : ℚ)), (1, 0), (1, 1), (0, 1), (0, 0)] : LinearRing).length ∧
    ([((0 : ℚ), (0 : ℚ)), (1, 0), (1, 1), (0, 1), (0, 0)] : LinearRing).Chain' (· ≠ ·) := by
  have h := c5_split_cleanup_ring_invariant [] 1
    [[[(0, 0), (1, 0), (1, 1), (0, 1), (0, 0)]]]
    [[(0, 0), (1, 0), (1, 1), (0, 1), (0, 0)]]
    (by norm_num [cleanupResult, cleanPoly, cleanRing, snapToLine, segmentsOf, snapFold,
      dedupRing, Prod.ext_iff])
    [(0, 0), (1, 0), (1, 1), (0, 1), (0, 0)] (by simp)
  exact h

/-- Claim C8: merge-mode click behaviour — a miss is a no-op; clicking
the selected target again is a no-op; clicking a different feature while
a target is selected unions the two and, when the union is non-empty,
pushes one snapshot of the pre-merge store, removes both inputs, adds a
single fresh feature holding the union (tagged `Polygon` for a
one-polygon union, `MultiPolygon` otherwise) and makes it the new merge
target. -/
theorem c8_merge_click_behaviour (union : MultiPoly → MultiPoly → MultiPoly)
    (s : EditState) :
    (mergeClick union s none = s) ∧
    (∀ t, s.mergeTarget = some t → mergeClick union s (some t) = s) ∧
    (∀ t f, s.mergeTarget = some t → f.fid ≠ t.fid →
      union t.geom.coordsAsMulti f.geom.coordsAsMulti ≠ [] →
      mergeClick union s (some f) =
        { s with
          store := (s.store.filter fun g => g.fid != t.fid && g.fid != f.fid) ++
            [⟨s.nextId,
              if (union t.geom.coordsAsMulti f.geom.coordsAsMulti).length = 1 then
                Geom.polygon ((union t.geom.coordsAsMulti f.geom.coordsAsMulti).headD [])
              else
                Geom.multiPolygon (union t.geom.coordsAsMulti f.geom.coordsAsMulti)⟩]
          undoStack := s.undoStack ++ [s.store]
          canUndo := true
          mergeTarget := some ⟨s.nextId,
            if (union t.geom.coordsAsMulti f.geom.coordsAsMulti).length = 1 then
              Geom.polygon ((union t.geom.coordsAsMulti f.geom.coordsAsMulti).headD [])
            else
              Geom.multiPolygon (union t.geom.coordsAsMulti f.geom.coordsAsMulti)⟩
          nextId := s.nextId + 1 }) := by
  refine ⟨rfl, ?_, ?_⟩
  · intro t ht
    simp [mergeClick, ht]
  · intro t f ht hne hres
    simp [mergeClick, ht, hne, mergeFeatures, hres, saveSnapshot]

/-- Witness square-feature pair for `c8_merge_click_behaviour`. -/
def c8t : Feature := ⟨1, .polygon [[(0, 0), (1, 0), (1, 1), (0, 1), (0, 0)]]⟩

/-- Second witness feature for `c8_merge_click_behaviour`. -/
def c8f : Feature := ⟨2, .polygon [[(1, 0), (2, 0), (2, 1), (1, 1), (1, 0)]]⟩

/-- Witness state for `c8_merge_click_behaviour`: both features in the
store, the first selected as merge target. -/
def c8state : EditState := ⟨[c8t, c8f], [], false, [], some c8t, 10⟩

/-- Witness for `c8_merge_click_behaviour`, with `union` modelled as
operand concatenation (a two-polygon result, hence `MultiPolygon`). -/
theorem c8_witness :
    mergeClick (fun a b => a ++ b) c8state (some c8f) =
      { c8state with
        store := (c8state.store.filter fun g => g.fid != c8t.fid && g.fid != c8f.fid) ++
          [⟨c8state.nextId,
            if ((fun (a b : MultiPoly) => a ++ b) c8t.geom.coordsAsMulti
                c8f.geom.coordsAsMulti).length = 1 then
              Geom.polygon (((fun (a b : MultiPoly) => a ++ b) c8t.geom.coordsAsMulti
                c8f.geom.coordsAsMulti).headD [])
            else
              Geom.multiPolygon ((fun (a b : MultiPoly) => a ++ b) c8t.geom.coordsAsMulti
                c8f.geom.coordsAsMulti)⟩]
        undoStack := c8state.undoStack ++ [c8state.store]
        canUndo := true
        mergeTarget := some ⟨c8state.nextId,
          if ((fun (a b : MultiPoly) => a ++ b) c8t.geom.coordsAsMulti
              c8f.geom.coordsAsMulti).length = 1 then
            Geom.polygon (((fun (a b : MultiPoly) => a ++ b) c8t.geom.coordsAsMulti
              c8f.geom.coordsAsMulti).headD [])
          else
            Geom.multiPolygon ((fun (a b : MultiPoly) => a ++ b) c8t.geom.coordsAsMulti
              c8f.geom.coordsAsMulti)⟩
        nextId := c8state.nextId + 1 } :=
  (c8_merge_click_behaviour (fun a b => a ++ b) c8state).2.2 c8t c8f rfl
    (by simp [c8f, c8t]) (by simp [c8t, c8f, Geom.coordsAsMulti])

end FtwEdit
